import Mathlib

/-!
Formal model of the two source files of the blockchain-from-scratch chain:
`src/c2_blockchain/p2_extrinsic_state.rs` (Linked-State Layer, namespace `P2`)
and `src/c2_blockchain/p3_consensus.rs` (Consensus Layer, namespace `P3`).

The Rust code consumes an external hashing primitive `hash : &T -> u64` that is
not part of these two files; the specification describes it as a deterministic
black box over a fixed-size integer digest space, so the whole development is
parameterized over an arbitrary `hashH : Header → Nat`. Machine integers (u64)
are modelled as `Nat`; overflow behaviour is left open by the specification
(its integer-overflow design note) and every claim is settled at that
abstraction.

In the Rust loops the `verifiable` flag is only ever assigned `false`, so it is
threaded through the recursion as a `Bool` accumulator exactly as in the
source; each `if cond { verifiable = false; }` statement becomes a
`let v := if cond then false else v` step in source order.
-/

namespace P2

/-- Header of the Linked-State Layer (`p2_extrinsic_state.rs`); its
`consensus_digest` field is the unit value there. -/
structure Header where
  parent : Nat
  height : Nat
  extrinsic : Nat
  state : Nat
  consensus_digest : Unit
  deriving DecidableEq

/-- `Header::genesis` of the Linked-State Layer. -/
def Header.genesis : Header :=
  { parent := 0, height := 0, extrinsic := 0, state := 0, consensus_digest := () }

/-- `Header::child` of the Linked-State Layer. -/
def Header.child (hashH : Header → Nat) (self : Header) (extrinsic : Nat) : Header :=
  { parent := hashH self, height := self.height + 1, extrinsic := extrinsic,
    state := self.state + extrinsic, consensus_digest := () }

/-- Loop of `Header::verify_sub_chain` (p2) over the candidates at index 1 and
beyond: a candidate that still has a successor takes the
`block_idx != chain.len() - 1` branch (successor-parent, own-height, own-state
checks, then the accumulator updates), while the final candidate
(`block_idx == chain.len() - 1` and not index 0) is given no checks at all. -/
def verifyRest (hashH : Header → Nat) : List Header → Bool → Nat → Nat → Bool
  | [], verifiable, _, _ => verifiable
  | [_], verifiable, _, _ => verifiable
  | header :: next :: rest, verifiable, currentHeight, currentState =>
    let v1 := if hashH header ≠ next.parent then false else verifiable
    let v2 := if header.height ≠ currentHeight + 1 then false else v1
    let v3 := if header.extrinsic + currentState ≠ header.state then false else v2
    verifyRest hashH (next :: rest) v3 (currentHeight + 1) (currentState + header.extrinsic)

/-- `Header::verify_sub_chain` of the Linked-State Layer: the candidate at
index 0 is checked against the anchor (the `block_idx == 0` branch), the
remaining candidates are processed by `verifyRest`. -/
def Header.verify_sub_chain (hashH : Header → Nat) (self : Header)
    (chain : List Header) : Bool :=
  match chain with
  | [] => true
  | header :: rest =>
    let v1 := if hashH self ≠ header.parent then false else true
    let v2 := if header.height ≠ self.height + 1 then false else v1
    let v3 := if header.extrinsic + self.state ≠ header.state then false else v2
    verifyRest hashH rest v3 (self.height + 1) (self.state + header.extrinsic)

/-- Modelled from the spec: the external hashing primitive
`hash(value) -> Digest` is not part of the two source files; the specification
only requires a deterministic function into a fixed-size integer digest space.
This is one concrete such function, used to evaluate the model on concrete
inputs. -/
def testHash (h : Header) : Nat :=
  (h.parent * 3 + h.height * 5 + h.extrinsic * 7 + h.state * 11 + 13) % 2 ^ 32

/-- The checks `verifyRest` performs, as one conjunction (the `verifiable`
flag is only ever lowered, so the verdict of the loop is the conjunction of all of
its checks). -/
def verifyRestC (hashH : Header → Nat) : List Header → Nat → Nat → Bool
  | [], _, _ => true
  | [_], _, _ => true
  | header :: next :: rest, currentHeight, currentState =>
    (!decide (hashH header ≠ next.parent)) &&
    (!decide (header.height ≠ currentHeight + 1)) &&
    (!decide (header.extrinsic + currentState ≠ header.state)) &&
    verifyRestC hashH (next :: rest) (currentHeight + 1) (currentState + header.extrinsic)

/-- The checks `Header::verify_sub_chain` (p2) performs, as one conjunction. -/
def verifyC (hashH : Header → Nat) (self : Header) : List Header → Bool
  | [] => true
  | header :: rest =>
    (!decide (hashH self ≠ header.parent)) &&
    (!decide (header.height ≠ self.height + 1)) &&
    (!decide (header.extrinsic + self.state ≠ header.state)) &&
    verifyRestC hashH rest (self.height + 1) (self.state + header.extrinsic)

end P2

namespace P3

/-- `const THRESHOLD: u64 = u64::max_value() / 100` of `p3_consensus.rs`. -/
def THRESHOLD : Nat := (2 ^ 64 - 1) / 100

/-- `const FORK_HEIGHT: u64 = 2` of `p3_consensus.rs`. -/
def FORK_HEIGHT : Nat := 2

/-- Header of the Consensus Layer (`p3_consensus.rs`): the consensus digest is
now a proof-of-work nonce. -/
structure Header where
  parent : Nat
  height : Nat
  extrinsic : Nat
  state : Nat
  consensus_digest : Nat
  deriving DecidableEq

/-- `Header::genesis` of the Consensus Layer. -/
def Header.genesis : Header :=
  { parent := 0, height := 0, extrinsic := 0, state := 0, consensus_digest := 0 }

/-- The candidate block built by `Header::child` (p3) before its mining loop
runs (nonce 0). -/
def preChild (hashH : Header → Nat) (self : Header) (extrinsic : Nat) : Header :=
  { parent := hashH self, height := self.height + 1, extrinsic := extrinsic,
    state := self.state + extrinsic, consensus_digest := 0 }

/-- The `while hash(&new_block) > THRESHOLD { nonce += 1; new_block.consensus_digest = nonce; }`
mining loop of `Header::child` (p3), with an explicit iteration budget `fuel`
standing for the unbounded loop (the loop in the source has no bound; see
`childSearchExits` for when it actually exits). -/
def childLoop (hashH : Header → Nat) (newBlock : Header) (nonce fuel : Nat) : Header :=
  match fuel with
  | 0 => newBlock
  | fuel + 1 =>
    if hashH newBlock > THRESHOLD then
      childLoop hashH { newBlock with consensus_digest := nonce + 1 } (nonce + 1) fuel
    else newBlock

/-- Whether the mining loop of `Header::child` (p3) exits within `fuel`
iterations: the unbounded source loop terminates exactly when this holds for
some `fuel`. -/
def childSearchExits (hashH : Header → Nat) (newBlock : Header) (nonce fuel : Nat) : Bool :=
  match fuel with
  | 0 => !decide (hashH newBlock > THRESHOLD)
  | fuel + 1 =>
    if hashH newBlock > THRESHOLD then
      childSearchExits hashH { newBlock with consensus_digest := nonce + 1 } (nonce + 1) fuel
    else true

/-- `Header::child` of the Consensus Layer: build the candidate block, then run
the mining loop. -/
def Header.child (hashH : Header → Nat) (fuel : Nat) (self : Header)
    (extrinsic : Nat) : Header :=
  childLoop hashH (preChild hashH self extrinsic) 0 fuel

/-- Loop of `Header::verify_sub_chain` (p3) over the candidates at index 1 and
beyond: every candidate gets the proof-of-work, height and state checks; a
candidate that still has a successor additionally gets the successor-parent
check and the accumulator updates, while the final candidate (not index 0)
gets neither. -/
def verifyRest (hashH : Header → Nat) : List Header → Bool → Nat → Nat → Bool
  | [], verifiable, _, _ => verifiable
  | [header], verifiable, currentHeight, currentState =>
    let v1 := if hashH header ≥ THRESHOLD then false else verifiable
    let v2 := if header.height ≠ currentHeight + 1 then false else v1
    let v3 := if header.extrinsic + currentState ≠ header.state then false else v2
    v3
  | header :: next :: rest, verifiable, currentHeight, currentState =>
    let v1 := if hashH header ≥ THRESHOLD then false else verifiable
    let v2 := if header.height ≠ currentHeight + 1 then false else v1
    let v3 := if header.extrinsic + currentState ≠ header.state then false else v2
    let v4 := if hashH header ≠ next.parent then false else v3
    verifyRest hashH (next :: rest) v4 (currentHeight + 1) (currentState + header.extrinsic)

/-- `Header::verify_sub_chain` of the Consensus Layer (baseline plus
proof-of-work): the candidate at index 0 gets the proof-of-work, height, state
and anchor-parent checks, the remaining candidates are processed by
`verifyRest`. -/
def Header.verify_sub_chain (hashH : Header → Nat) (self : Header)
    (chain : List Header) : Bool :=
  match chain with
  | [] => true
  | header :: rest =>
    let v1 := if hashH header ≥ THRESHOLD then false else true
    let v2 := if header.height ≠ self.height + 1 then false else v1
    let v3 := if header.extrinsic + self.state ≠ header.state then false else v2
    let v4 := if hashH self ≠ header.parent then false else v3
    verifyRest hashH rest v4 (self.height + 1) (self.state + header.extrinsic)

/-- Loop of `Header::verify_sub_chain_even` (p3) over the candidates at index 1
and beyond: like `verifyRest`, but the accumulators are updated for every
candidate (the updates sit outside the index branches in the source) and after
each update the accumulated state must not be odd once the accumulated height
exceeds `FORK_HEIGHT`. -/
def evenRest (hashH : Header → Nat) : List Header → Bool → Nat → Nat → Bool
  | [], verifiable, _, _ => verifiable
  | [header], verifiable, currentHeight, currentState =>
    let v1 := if hashH header ≥ THRESHOLD then false else verifiable
    let v2 := if header.height ≠ currentHeight + 1 then false else v1
    let v3 := if header.extrinsic + currentState ≠ header.state then false else v2
    let v4 := if (currentState + header.extrinsic) % 2 = 1 ∧ currentHeight + 1 > FORK_HEIGHT
      then false else v3
    v4
  | header :: next :: rest, verifiable, currentHeight, currentState =>
    let v1 := if hashH header ≥ THRESHOLD then false else verifiable
    let v2 := if header.height ≠ currentHeight + 1 then false else v1
    let v3 := if header.extrinsic + currentState ≠ header.state then false else v2
    let v4 := if hashH header ≠ next.parent then false else v3
    let v5 := if (currentState + header.extrinsic) % 2 = 1 ∧ currentHeight + 1 > FORK_HEIGHT
      then false else v4
    evenRest hashH (next :: rest) v5 (currentHeight + 1) (currentState + header.extrinsic)

/-- `Header::verify_sub_chain_even` of the Consensus Layer: the state parity of the anchor itself is checked first (against the height of
the anchor itself), then the
candidate at index 0 is checked as in the baseline plus the post-update parity
check, and the remaining candidates are processed by `evenRest`. -/
def Header.verify_sub_chain_even (hashH : Header → Nat) (self : Header)
    (chain : List Header) : Bool :=
  let v0 := if self.state % 2 = 1 ∧ self.height > FORK_HEIGHT then false else true
  match chain with
  | [] => v0
  | header :: rest =>
    let v1 := if hashH header ≥ THRESHOLD then false else v0
    let v2 := if header.height ≠ self.height + 1 then false else v1
    let v3 := if header.extrinsic + self.state ≠ header.state then false else v2
    let v4 := if hashH self ≠ header.parent then false else v3
    let v5 := if (self.state + header.extrinsic) % 2 = 1 ∧ self.height + 1 > FORK_HEIGHT
      then false else v4
    evenRest hashH rest v5 (self.height + 1) (self.state + header.extrinsic)

/-- Loop of `Header::verify_sub_chain_odd` (p3): as `evenRest` with the
opposite target parity. -/
def oddRest (hashH : Header → Nat) : List Header → Bool → Nat → Nat → Bool
  | [], verifiable, _, _ => verifiable
  | [header], verifiable, currentHeight, currentState =>
    let v1 := if hashH header ≥ THRESHOLD then false else verifiable
    let v2 := if header.height ≠ currentHeight + 1 then false else v1
    let v3 := if header.extrinsic + currentState ≠ header.state then false else v2
    let v4 := if (currentState + header.extrinsic) % 2 = 0 ∧ currentHeight + 1 > FORK_HEIGHT
      then false else v3
    v4
  | header :: next :: rest, verifiable, currentHeight, currentState =>
    let v1 := if hashH header ≥ THRESHOLD then false else verifiable
    let v2 := if header.height ≠ currentHeight + 1 then false else v1
    let v3 := if header.extrinsic + currentState ≠ header.state then false else v2
    let v4 := if hashH header ≠ next.parent then false else v3
    let v5 := if (currentState + header.extrinsic) % 2 = 0 ∧ currentHeight + 1 > FORK_HEIGHT
      then false else v4
    oddRest hashH (next :: rest) v5 (currentHeight + 1) (currentState + header.extrinsic)

/-- `Header::verify_sub_chain_odd` of the Consensus Layer. -/
def Header.verify_sub_chain_odd (hashH : Header → Nat) (self : Header)
    (chain : List Header) : Bool :=
  let v0 := if self.state % 2 = 0 ∧ self.height > FORK_HEIGHT then false else true
  match chain with
  | [] => v0
  | header :: rest =>
    let v1 := if hashH header ≥ THRESHOLD then false else v0
    let v2 := if header.height ≠ self.height + 1 then false else v1
    let v3 := if header.extrinsic + self.state ≠ header.state then false else v2
    let v4 := if hashH self ≠ header.parent then false else v3
    let v5 := if (self.state + header.extrinsic) % 2 = 0 ∧ self.height + 1 > FORK_HEIGHT
      then false else v4
    oddRest hashH rest v5 (self.height + 1) (self.state + header.extrinsic)

/-- The parity constraint of the specification on a single header, stated on
the fields of the header itself: a height strictly above `FORK_HEIGHT` forces an even
state. -/
def evenAfterFork (h : Header) : Bool :=
  decide (h.height > FORK_HEIGHT → h.state % 2 = 0)

/-- The parity constraint of the specification for the odd rule. -/
def oddAfterFork (h : Header) : Bool :=
  decide (h.height > FORK_HEIGHT → h.state % 2 = 1)

/-- The parity checks performed by `evenRest` in isolation, on the running
accumulators. -/
def parityRestEven : List Header → Nat → Nat → Bool
  | [], _, _ => true
  | header :: rest, currentHeight, currentState =>
    (!decide ((currentState + header.extrinsic) % 2 = 1 ∧ currentHeight + 1 > FORK_HEIGHT)) &&
      parityRestEven rest (currentHeight + 1) (currentState + header.extrinsic)

/-- The parity checks performed by `oddRest` in isolation, on the running
accumulators. -/
def parityRestOdd : List Header → Nat → Nat → Bool
  | [], _, _ => true
  | header :: rest, currentHeight, currentState =>
    (!decide ((currentState + header.extrinsic) % 2 = 0 ∧ currentHeight + 1 > FORK_HEIGHT)) &&
      parityRestOdd rest (currentHeight + 1) (currentState + header.extrinsic)

/-- Modelled from the spec: a concrete instance of the external hashing
primitive (see `P2.testHash`), here also covering the consensus digest field.
Its values stay below `2 ^ 32` and hence below `THRESHOLD`, so with it the
proof-of-work search always exits at nonce 0. -/
def testHash (h : Header) : Nat :=
  (h.parent * 3 + h.height * 5 + h.extrinsic * 7 + h.state * 11 +
    h.consensus_digest * 17 + 13) % 2 ^ 32

/-- Modelled from the spec: a degenerate instance of the external hashing
primitive whose every digest equals `THRESHOLD` exactly, exhibiting the
boundary behaviour of the mining loop. -/
def boundaryHash (_ : Header) : Nat := THRESHOLD

/-- Modelled from the spec: a degenerate instance of the external hashing
primitive whose every digest lies strictly above `THRESHOLD`, so that no nonce
can ever satisfy the proof-of-work search. -/
def stuckHash (_ : Header) : Nat := THRESHOLD + 1

/-- The checks `verifyRest` (p3) performs, as one conjunction. -/
def verifyRestC (hashH : Header → Nat) : List Header → Nat → Nat → Bool
  | [], _, _ => true
  | [header], currentHeight, currentState =>
    (!decide (hashH header ≥ THRESHOLD)) &&
    (!decide (header.height ≠ currentHeight + 1)) &&
    (!decide (header.extrinsic + currentState ≠ header.state))
  | header :: next :: rest, currentHeight, currentState =>
    (!decide (hashH header ≥ THRESHOLD)) &&
    (!decide (header.height ≠ currentHeight + 1)) &&
    (!decide (header.extrinsic + currentState ≠ header.state)) &&
    (!decide (hashH header ≠ next.parent)) &&
    verifyRestC hashH (next :: rest) (currentHeight + 1) (currentState + header.extrinsic)

/-- The checks `Header::verify_sub_chain` (p3) performs, as one conjunction. -/
def verifyC (hashH : Header → Nat) (self : Header) : List Header → Bool
  | [] => true
  | header :: rest =>
    (!decide (hashH header ≥ THRESHOLD)) &&
    (!decide (header.height ≠ self.height + 1)) &&
    (!decide (header.extrinsic + self.state ≠ header.state)) &&
    (!decide (hashH self ≠ header.parent)) &&
    verifyRestC hashH rest (self.height + 1) (self.state + header.extrinsic)

/-- The candidate `Header::child` (p3) examines at nonce `n`. -/
def nthCandidate (hashH : Header → Nat) (self : Header) (extrinsic n : Nat) : Header :=
  { preChild hashH self extrinsic with consensus_digest := n }

/-- Concrete demonstration chain for the fork-height boundary: states 2 and 3
up to the fork height, then an odd continuation 5, 7 and an even continuation
4, 6, all built with the concrete oracle. -/
def demo1 : Header := Header.child testHash 0 Header.genesis 2

/-- Second demonstration header (height 2, state 3: odd exactly at the fork
height). -/
def demo2 : Header := Header.child testHash 0 demo1 1

/-- Odd continuation at height 3 (state 5). -/
def demo3odd : Header := Header.child testHash 0 demo2 2

/-- Odd continuation at height 4 (state 7). -/
def demo4odd : Header := Header.child testHash 0 demo3odd 2

/-- Even continuation at height 3 (state 4). -/
def demo3even : Header := Header.child testHash 0 demo2 1

/-- Even continuation at height 4 (state 6). -/
def demo4even : Header := Header.child testHash 0 demo3even 2

end P3

/-- One threading step of the `verifiable` flag, rewritten as a conjunction:
`if cond { verifiable = false; }` leaves `verifiable && !cond`. -/
theorem ite_false_thread (P : Prop) [Decidable P] (v : Bool) :
    (if P then false else v) = (!decide P && v) := by
  by_cases h : P <;> simp [h]

namespace P2



/-- `verifyRest` is its incoming flag conjoined with its checks. -/
theorem verifyRest_eq (hashH : Header → Nat) :
    ∀ (l : List Header) (v : Bool) (ch cs : Nat),
      verifyRest hashH l v ch cs = (v && verifyRestC hashH l ch cs)
  | [], v, ch, cs => by simp [verifyRest, verifyRestC]
  | [h], v, ch, cs => by simp [verifyRest, verifyRestC]
  | h :: n :: t, v, ch, cs => by
    rw [verifyRest, verifyRestC, verifyRest_eq hashH (n :: t)]
    simp only [ite_false_thread]
    simp [Bool.and_assoc, Bool.and_comm, Bool.and_left_comm]

/-- A failed conjunction of checks stays failed when the candidate sequence is
extended on the right. -/
theorem verifyRestC_append (hashH : Header → Nat) :
    ∀ (C D : List Header) (ch cs : Nat),
      verifyRestC hashH C ch cs = false → verifyRestC hashH (C ++ D) ch cs = false
  | [], D, ch, cs, hv => by simp [verifyRestC] at hv
  | [h], D, ch, cs, hv => by simp [verifyRestC] at hv
  | h :: n :: t, D, ch, cs, hv => by
    rw [verifyRestC] at hv
    simp only [List.cons_append]
    rw [verifyRestC]
    rcases Bool.and_eq_false_iff.mp hv with hv | hv
    · rcases Bool.and_eq_false_iff.mp hv with hv | hv
      · rcases Bool.and_eq_false_iff.mp hv with hv | hv
        · rw [hv]; simp
        · rw [hv]; simp
      · rw [hv]; simp
    · have hrec := verifyRestC_append hashH (n :: t) D (ch + 1) (cs + h.extrinsic) hv
      rw [List.cons_append] at hrec
      rw [hrec]
      simp

end P2

namespace P3



/-- `verifyRest` (p3) is its incoming flag conjoined with its checks. -/
theorem verifyRest_eq3 (hashH : Header → Nat) :
    ∀ (l : List Header) (v : Bool) (ch cs : Nat),
      verifyRest hashH l v ch cs = (v && verifyRestC hashH l ch cs)
  | [], v, ch, cs => by simp [verifyRest, verifyRestC]
  | [h], v, ch, cs => by
    rw [verifyRest, verifyRestC]
    simp only [ite_false_thread]
    simp [Bool.and_assoc, Bool.and_comm, Bool.and_left_comm]
  | h :: n :: t, v, ch, cs => by
    rw [verifyRest, verifyRestC, verifyRest_eq3 hashH (n :: t)]
    simp only [ite_false_thread]
    simp [Bool.and_assoc, Bool.and_comm, Bool.and_left_comm]

/-- A failed conjunction of checks stays failed when the candidate sequence is
extended on the right (p3). -/
theorem verifyRestC_append3 (hashH : Header → Nat) :
    ∀ (C D : List Header) (ch cs : Nat),
      verifyRestC hashH C ch cs = false → verifyRestC hashH (C ++ D) ch cs = false
  | [], D, ch, cs, hv => by simp [verifyRestC] at hv
  | [h], D, ch, cs, hv => by
    cases D with
    | nil => simpa using hv
    | cons d t =>
      rw [verifyRestC] at hv
      simp only [List.singleton_append]
      rw [verifyRestC]
      rcases Bool.and_eq_false_iff.mp hv with hv | hv
      · rcases Bool.and_eq_false_iff.mp hv with hv | hv
        · rw [hv]; simp
        · rw [hv]; simp
      · rw [hv]; simp
  | h :: n :: t, D, ch, cs, hv => by
    rw [verifyRestC] at hv
    simp only [List.cons_append]
    rw [verifyRestC]
    rcases Bool.and_eq_false_iff.mp hv with hv | hv
    · rcases Bool.and_eq_false_iff.mp hv with hv | hv
      · rcases Bool.and_eq_false_iff.mp hv with hv | hv
        · rcases Bool.and_eq_false_iff.mp hv with hv | hv
          · rw [hv]; simp
          · rw [hv]; simp
        · rw [hv]; simp
      · rw [hv]; simp
    · have hrec := verifyRestC_append3 hashH (n :: t) D (ch + 1) (cs + h.extrinsic) hv
      rw [List.cons_append] at hrec
      rw [hrec]
      simp

/-- A state of parity 1 above the fork height, as the source tests it, is the
negation of the even-after-fork constraint of the specification. -/
theorem even_atom (s n : Nat) :
    (!decide (s % 2 = 1 ∧ n > FORK_HEIGHT)) = decide (n > FORK_HEIGHT → s % 2 = 0) := by
  rcases Nat.mod_two_eq_zero_or_one s with h | h <;> by_cases hn : n > FORK_HEIGHT <;>
    simp [h, hn]

/-- A state of parity 0 above the fork height is the negation of the
odd-after-fork constraint of the specification. -/
theorem odd_atom (s n : Nat) :
    (!decide (s % 2 = 0 ∧ n > FORK_HEIGHT)) = decide (n > FORK_HEIGHT → s % 2 = 1) := by
  rcases Nat.mod_two_eq_zero_or_one s with h | h <;> by_cases hn : n > FORK_HEIGHT <;>
    simp [h, hn]

/-- `evenRest` is its incoming flag conjoined with the baseline checks and the
accumulator-parity checks. -/
theorem evenRest_eq (hashH : Header → Nat) :
    ∀ (l : List Header) (v : Bool) (ch cs : Nat),
      evenRest hashH l v ch cs =
        (v && (verifyRestC hashH l ch cs && parityRestEven l ch cs))
  | [], v, ch, cs => by simp [evenRest, verifyRestC, parityRestEven]
  | [h], v, ch, cs => by
    rw [evenRest, verifyRestC, parityRestEven, parityRestEven]
    simp only [ite_false_thread]
    simp [Bool.and_assoc, Bool.and_comm, Bool.and_left_comm]
  | h :: n :: t, v, ch, cs => by
    rw [evenRest, verifyRestC, parityRestEven, evenRest_eq hashH (n :: t)]
    simp only [ite_false_thread]
    simp [Bool.and_assoc, Bool.and_comm, Bool.and_left_comm]

/-- `oddRest` is its incoming flag conjoined with the baseline checks and the
accumulator-parity checks. -/
theorem oddRest_eq (hashH : Header → Nat) :
    ∀ (l : List Header) (v : Bool) (ch cs : Nat),
      oddRest hashH l v ch cs =
        (v && (verifyRestC hashH l ch cs && parityRestOdd l ch cs))
  | [], v, ch, cs => by simp [oddRest, verifyRestC, parityRestOdd]
  | [h], v, ch, cs => by
    rw [oddRest, verifyRestC, parityRestOdd, parityRestOdd]
    simp only [ite_false_thread]
    simp [Bool.and_assoc, Bool.and_comm, Bool.and_left_comm]
  | h :: n :: t, v, ch, cs => by
    rw [oddRest, verifyRestC, parityRestOdd, oddRest_eq hashH (n :: t)]
    simp only [ite_false_thread]
    simp [Bool.and_assoc, Bool.and_comm, Bool.and_left_comm]

/-- When every baseline check passes, the accumulators retrace the fields of
the headers themselves, so the accumulator-parity checks coincide with the
per-header even-after-fork constraint of the specification. -/
theorem parityRestEven_actual (hashH : Header → Nat) :
    ∀ (l : List Header) (ch cs : Nat), verifyRestC hashH l ch cs = true →
      parityRestEven l ch cs = l.all evenAfterFork
  | [], ch, cs, _ => by simp [parityRestEven]
  | [h], ch, cs, hv => by
    simp [verifyRestC] at hv
    obtain ⟨⟨hpow, hh⟩, hs⟩ := hv
    rw [parityRestEven, parityRestEven]
    rw [Nat.add_comm cs h.extrinsic, hs, ← hh, even_atom]
    simp [evenAfterFork]
  | h :: n :: t, ch, cs, hv => by
    rw [verifyRestC] at hv
    simp only [Bool.and_eq_true] at hv
    obtain ⟨⟨⟨⟨hpow, hh⟩, hs⟩, hd⟩, hrec⟩ := hv
    simp only [decide_not, Bool.not_not, decide_eq_true_eq] at hpow hh hs hd
    rw [parityRestEven, List.all_cons]
    rw [parityRestEven_actual hashH (n :: t) _ _ hrec]
    rw [Nat.add_comm cs h.extrinsic, hs, ← hh, even_atom]
    simp [evenAfterFork]

/-- The odd analogue of `parityRestEven_actual`. -/
theorem parityRestOdd_actual (hashH : Header → Nat) :
    ∀ (l : List Header) (ch cs : Nat), verifyRestC hashH l ch cs = true →
      parityRestOdd l ch cs = l.all oddAfterFork
  | [], ch, cs, _ => by simp [parityRestOdd]
  | [h], ch, cs, hv => by
    simp [verifyRestC] at hv
    obtain ⟨⟨hpow, hh⟩, hs⟩ := hv
    rw [parityRestOdd, parityRestOdd]
    rw [Nat.add_comm cs h.extrinsic, hs, ← hh, odd_atom]
    simp [oddAfterFork]
  | h :: n :: t, ch, cs, hv => by
    rw [verifyRestC] at hv
    simp only [Bool.and_eq_true] at hv
    obtain ⟨⟨⟨⟨hpow, hh⟩, hs⟩, hd⟩, hrec⟩ := hv
    simp only [decide_not, Bool.not_not, decide_eq_true_eq] at hpow hh hs hd
    rw [parityRestOdd, List.all_cons]
    rw [parityRestOdd_actual hashH (n :: t) _ _ hrec]
    rw [Nat.add_comm cs h.extrinsic, hs, ← hh, odd_atom]
    simp [oddAfterFork]

end P3

namespace P2



/-- `Header::verify_sub_chain` (p2) is the conjunction of its checks. -/
theorem verify_sub_chain_eq (hashH : Header → Nat) (self : Header) (chain : List Header) :
    self.verify_sub_chain hashH chain = verifyC hashH self chain := by
  cases chain with
  | nil => rfl
  | cons h rest =>
    rw [Header.verify_sub_chain, verifyC, verifyRest_eq]
    simp only [ite_false_thread]
    simp [Bool.and_assoc, Bool.and_comm, Bool.and_left_comm]

/-- A failed wrapper conjunction stays failed under right extension (p2). -/
theorem verifyC_append (hashH : Header → Nat) (self : Header) :
    ∀ (C D : List Header), verifyC hashH self C = false →
      verifyC hashH self (C ++ D) = false
  | [], D, hv => by simp [verifyC] at hv
  | h :: t, D, hv => by
    rw [verifyC] at hv
    simp only [List.cons_append]
    rw [verifyC]
    rcases Bool.and_eq_false_iff.mp hv with hv | hv
    · rcases Bool.and_eq_false_iff.mp hv with hv | hv
      · rcases Bool.and_eq_false_iff.mp hv with hv | hv
        · rw [hv]; simp
        · rw [hv]; simp
      · rw [hv]; simp
    · rw [verifyRestC_append hashH t D _ _ hv]
      simp

end P2

namespace P3



/-- `Header::verify_sub_chain` (p3) is the conjunction of its checks. -/
theorem verify_sub_chain_eq3 (hashH : Header → Nat) (self : Header) (chain : List Header) :
    self.verify_sub_chain hashH chain = verifyC hashH self chain := by
  cases chain with
  | nil => rfl
  | cons h rest =>
    rw [Header.verify_sub_chain, verifyC, verifyRest_eq3]
    simp only [ite_false_thread]
    simp [Bool.and_assoc, Bool.and_comm, Bool.and_left_comm]

/-- A failed wrapper conjunction stays failed under right extension (p3). -/
theorem verifyC_append3 (hashH : Header → Nat) (self : Header) :
    ∀ (C D : List Header), verifyC hashH self C = false →
      verifyC hashH self (C ++ D) = false
  | [], D, hv => by simp [verifyC] at hv
  | h :: t, D, hv => by
    rw [verifyC] at hv
    simp only [List.cons_append]
    rw [verifyC]
    rcases Bool.and_eq_false_iff.mp hv with hv | hv
    · rcases Bool.and_eq_false_iff.mp hv with hv | hv
      · rcases Bool.and_eq_false_iff.mp hv with hv | hv
        · rcases Bool.and_eq_false_iff.mp hv with hv | hv
          · rw [hv]; simp
          · rw [hv]; simp
        · rw [hv]; simp
      · rw [hv]; simp
    · rw [verifyRestC_append3 hashH t D _ _ hv]
      simp

/-- `Header::verify_sub_chain_even` is the baseline-plus-PoW verification
conjoined with the even-after-fork constraint of the specification on the anchor
and on every candidate. -/
theorem verify_even_eq (hashH : Header → Nat) (self : Header) (chain : List Header) :
    self.verify_sub_chain_even hashH chain =
      (self.verify_sub_chain hashH chain &&
        (evenAfterFork self && chain.all evenAfterFork)) := by
  cases chain with
  | nil =>
    rw [Header.verify_sub_chain_even, Header.verify_sub_chain]
    simp only [ite_false_thread, even_atom]
    simp [evenAfterFork]
  | cons h rest =>
    rw [Header.verify_sub_chain_even, Header.verify_sub_chain, evenRest_eq, verifyRest_eq3]
    simp only [ite_false_thread, List.all_cons]
    cases hrec : verifyRestC hashH rest (self.height + 1) (self.state + h.extrinsic) with
    | false => simp [hrec]
    | true =>
      rw [parityRestEven_actual hashH rest _ _ hrec]
      by_cases hh : h.height = self.height + 1
      · by_cases hs : h.extrinsic + self.state = h.state
        · rw [Nat.add_comm self.state h.extrinsic, hs, ← hh]
          simp only [even_atom]
          simp [evenAfterFork, Bool.and_assoc, Bool.and_comm, Bool.and_left_comm]
        · simp [hs]
      · simp [hh]

/-- `Header::verify_sub_chain_odd` is the baseline-plus-PoW verification
conjoined with the odd-after-fork constraint of the specification on the anchor
and on every candidate. -/
theorem verify_odd_eq (hashH : Header → Nat) (self : Header) (chain : List Header) :
    self.verify_sub_chain_odd hashH chain =
      (self.verify_sub_chain hashH chain &&
        (oddAfterFork self && chain.all oddAfterFork)) := by
  cases chain with
  | nil =>
    rw [Header.verify_sub_chain_odd, Header.verify_sub_chain]
    simp only [ite_false_thread, odd_atom]
    simp [oddAfterFork]
  | cons h rest =>
    rw [Header.verify_sub_chain_odd, Header.verify_sub_chain, oddRest_eq, verifyRest_eq3]
    simp only [ite_false_thread, List.all_cons]
    cases hrec : verifyRestC hashH rest (self.height + 1) (self.state + h.extrinsic) with
    | false => simp [hrec]
    | true =>
      rw [parityRestOdd_actual hashH rest _ _ hrec]
      by_cases hh : h.height = self.height + 1
      · by_cases hs : h.extrinsic + self.state = h.state
        · rw [Nat.add_comm self.state h.extrinsic, hs, ← hh]
          simp only [odd_atom]
          simp [oddAfterFork, Bool.and_assoc, Bool.and_comm, Bool.and_left_comm]
        · simp [hs]
      · simp [hh]

end P3

namespace P3

/-- The mining loop only ever rewrites the consensus digest; the linkage,
height, extrinsic and state fields of its result are those of the candidate it
started from. -/
theorem childLoop_fields (hashH : Header → Nat) :
    ∀ (fuel : Nat) (b : Header) (nonce : Nat),
      (childLoop hashH b nonce fuel).parent = b.parent ∧
      (childLoop hashH b nonce fuel).height = b.height ∧
      (childLoop hashH b nonce fuel).extrinsic = b.extrinsic ∧
      (childLoop hashH b nonce fuel).state = b.state
  | 0, b, nonce => by simp [childLoop]
  | fuel + 1, b, nonce => by
    rw [childLoop]
    by_cases hcond : hashH b > THRESHOLD
    · rw [if_pos hcond]
      have ih := childLoop_fields hashH fuel { b with consensus_digest := nonce + 1 } (nonce + 1)
      simpa using ih
    · rw [if_neg hcond]
      exact ⟨rfl, rfl, rfl, rfl⟩

/-- Under the boundary oracle every candidate hashes to exactly `THRESHOLD`,
so the loop guard `hash > THRESHOLD` is false at once and the mining loop
returns its input unchanged. -/
theorem childLoop_boundaryHash :
    ∀ (fuel : Nat) (b : Header) (nonce : Nat),
      childLoop boundaryHash b nonce fuel = b
  | 0, _, _ => rfl
  | fuel + 1, b, nonce => by
    rw [childLoop, if_neg]
    exact lt_irrefl THRESHOLD



/-- If the candidate at nonce `nonce + fuel` hashes at or below `THRESHOLD`,
the mining loop started at nonce `nonce` exits within `fuel` iterations. -/
theorem childSearchExits_of_le (hashH : Header → Nat) (self : Header) (e : Nat) :
    ∀ (fuel nonce : Nat),
      hashH (nthCandidate hashH self e (nonce + fuel)) ≤ THRESHOLD →
      childSearchExits hashH (nthCandidate hashH self e nonce) nonce fuel = true
  | 0, nonce, hgood => by
    rw [childSearchExits]
    simpa using hgood
  | fuel + 1, nonce, hgood => by
    rw [childSearchExits]
    by_cases hcond : hashH (nthCandidate hashH self e nonce) > THRESHOLD
    · rw [if_pos hcond]
      have hstep : ({ nthCandidate hashH self e nonce with consensus_digest := nonce + 1 }) =
          nthCandidate hashH self e (nonce + 1) := rfl
      rw [hstep]
      refine childSearchExits_of_le hashH self e fuel (nonce + 1) ?_
      rw [show nonce + 1 + fuel = nonce + (fuel + 1) by omega]
      exact hgood
    · rw [if_neg hcond]

/-- Under the stuck oracle every candidate hashes strictly above `THRESHOLD`,
so the mining loop never exits, whatever iteration budget it is given. -/
theorem childSearchExits_stuckHash :
    ∀ (fuel : Nat) (b : Header) (nonce : Nat),
      childSearchExits stuckHash b nonce fuel = false
  | 0, b, nonce => by
    rw [childSearchExits]
    simp [stuckHash]
  | fuel + 1, b, nonce => by
    rw [childSearchExits, if_pos]
    · exact childSearchExits_stuckHash fuel _ _
    · exact Nat.lt_succ_self THRESHOLD

end P3

/-- C2: for every anchor A and candidate sequence C, `verify_sub_chain_even`
(respectively `verify_sub_chain_odd`) returns true iff the full
baseline-plus-PoW verification of the Consensus Layer passes and every header
among A and the candidates whose height is strictly greater than FORK_HEIGHT
has even (respectively odd) state; headers at or below FORK_HEIGHT are exempt. -/
theorem C2_partisan_parity_iff :
    ∀ (hashH : P3.Header → Nat) (A : P3.Header) (C : List P3.Header),
      (P3.Header.verify_sub_chain_even hashH A C =
        (P3.Header.verify_sub_chain hashH A C &&
          (P3.evenAfterFork A && C.all P3.evenAfterFork))) ∧
      (P3.Header.verify_sub_chain_odd hashH A C =
        (P3.Header.verify_sub_chain hashH A C &&
          (P3.oddAfterFork A && C.all P3.oddAfterFork))) :=
  fun hashH A C => ⟨P3.verify_even_eq hashH A C, P3.verify_odd_eq hashH A C⟩

/-- C6: in both layers, the header returned by `child(H, e)` has height
`H.height + 1`, parent `digest(H)`, extrinsic `e` and state `H.state + e`
(in the Consensus Layer, for every iteration budget of the nonce search). -/
theorem C6_child_field_invariants :
    ∀ (hashP2 : P2.Header → Nat) (hashP3 : P3.Header → Nat) (fuel : Nat)
      (H2 : P2.Header) (H3 : P3.Header) (e : Nat),
      ((P2.Header.child hashP2 H2 e).height = H2.height + 1 ∧
        (P2.Header.child hashP2 H2 e).parent = hashP2 H2 ∧
        (P2.Header.child hashP2 H2 e).extrinsic = e ∧
        (P2.Header.child hashP2 H2 e).state = H2.state + e) ∧
      ((P3.Header.child hashP3 fuel H3 e).height = H3.height + 1 ∧
        (P3.Header.child hashP3 fuel H3 e).parent = hashP3 H3 ∧
        (P3.Header.child hashP3 fuel H3 e).extrinsic = e ∧
        (P3.Header.child hashP3 fuel H3 e).state = H3.state + e) := by
  intro hashP2 hashP3 fuel H2 H3 e
  refine ⟨⟨rfl, rfl, rfl, rfl⟩, ?_⟩
  obtain ⟨hp, hh, he, hs⟩ :=
    P3.childLoop_fields hashP3 fuel (P3.preChild hashP3 H3 e) 0
  rw [P3.Header.child]
  exact ⟨hh, hp, he, hs⟩

/-- C8: in the Linked-State Layer the verdict on a two-candidate chain never
depends on the second candidate: `verify_sub_chain(A, [c1, c2])` equals
`verify_sub_chain(A, [c1])` for all headers `c2`. -/
theorem C8_second_candidate_ignored :
    ∀ (hashH : P2.Header → Nat) (A c1 c2 : P2.Header),
      P2.Header.verify_sub_chain hashH A [c1, c2] =
        P2.Header.verify_sub_chain hashH A [c1] := by
  intro hashH A c1 c2
  rfl

/-- C9: in both layers a false verdict of the baseline verification is
preserved when the candidate sequence is extended on the right. -/
theorem C9_falsity_preserved_by_extension :
    ∀ (hashP2 : P2.Header → Nat) (hashP3 : P3.Header → Nat)
      (A2 : P2.Header) (A3 : P3.Header)
      (Cs Ds : List P2.Header) (Es Fs : List P3.Header),
      (P2.Header.verify_sub_chain hashP2 A2 Cs = false →
        P2.Header.verify_sub_chain hashP2 A2 (Cs ++ Ds) = false) ∧
      (P3.Header.verify_sub_chain hashP3 A3 Es = false →
        P3.Header.verify_sub_chain hashP3 A3 (Es ++ Fs) = false) := by
  intro hashP2 hashP3 A2 A3 Cs Ds Es Fs
  constructor
  · intro hv
    rw [P2.verify_sub_chain_eq] at hv ⊢
    exact P2.verifyC_append hashP2 A2 Cs Ds hv
  · intro hv
    rw [P3.verify_sub_chain_eq3] at hv ⊢
    exact P3.verifyC_append3 hashP3 A3 Es Fs hv

/-- C9 witness: a concrete bad single candidate keeps the verdict false after
appending a further candidate, in both layers. -/
theorem C9_falsity_preserved_by_extension_witness :
    (P2.Header.verify_sub_chain P2.testHash P2.Header.genesis
      [⟨9, 9, 9, 9, ()⟩] = false ∧
      P2.Header.verify_sub_chain P2.testHash P2.Header.genesis
        ([⟨9, 9, 9, 9, ()⟩] ++ [⟨1, 1, 1, 1, ()⟩]) = false) ∧
    (P3.Header.verify_sub_chain P3.testHash P3.Header.genesis
      [⟨9, 9, 9, 9, 9⟩] = false ∧
      P3.Header.verify_sub_chain P3.testHash P3.Header.genesis
        ([⟨9, 9, 9, 9, 9⟩] ++ [⟨1, 1, 1, 1, 1⟩]) = false) :=
  ⟨⟨by decide,
    (C9_falsity_preserved_by_extension P2.testHash P3.testHash
      P2.Header.genesis P3.Header.genesis [⟨9, 9, 9, 9, ()⟩] [⟨1, 1, 1, 1, ()⟩]
      [] []).1 (by decide)⟩,
   ⟨by decide,
    (C9_falsity_preserved_by_extension P2.testHash P3.testHash
      P2.Header.genesis P3.Header.genesis [] []
      [⟨9, 9, 9, 9, 9⟩] [⟨1, 1, 1, 1, 1⟩]).2 (by decide)⟩⟩

/-- C10: the partisan verifiers can reject on the anchor alone: an anchor
above the fork height with the wrong-parity state makes the empty candidate
sequence fail, while the baseline verification always accepts the empty
sequence. -/
theorem C10_anchor_alone_rejected :
    ∀ (hashH : P3.Header → Nat) (H : P3.Header),
      (H.height > P3.FORK_HEIGHT → H.state % 2 = 1 →
        P3.Header.verify_sub_chain_even hashH H [] = false) ∧
      (H.height > P3.FORK_HEIGHT → H.state % 2 = 0 →
        P3.Header.verify_sub_chain_odd hashH H [] = false) ∧
      P3.Header.verify_sub_chain hashH H [] = true := by
  intro hashH H
  refine ⟨?_, ?_, rfl⟩
  · intro hh hs
    rw [P3.verify_even_eq]
    simp [P3.evenAfterFork, hh, hs]
  · intro hh hs
    rw [P3.verify_odd_eq]
    simp [P3.oddAfterFork, hh, hs]

/-- C10 witness: concrete anchors above the fork height with odd and even
states are rejected by the even and odd verifiers respectively, and accepted
by the baseline, all on the empty candidate sequence. -/
theorem C10_anchor_alone_rejected_witness :
    P3.Header.verify_sub_chain_even P3.testHash ⟨0, 3, 0, 7, 0⟩ [] = false ∧
    P3.Header.verify_sub_chain_odd P3.testHash ⟨0, 3, 0, 8, 0⟩ [] = false ∧
    P3.Header.verify_sub_chain P3.testHash ⟨0, 3, 0, 7, 0⟩ [] = true :=
  ⟨(C10_anchor_alone_rejected P3.testHash ⟨0, 3, 0, 7, 0⟩).1 (by decide) (by decide),
   (C10_anchor_alone_rejected P3.testHash ⟨0, 3, 0, 8, 0⟩).2.1 (by decide) (by decide),
   (C10_anchor_alone_rejected P3.testHash ⟨0, 3, 0, 7, 0⟩).2.2⟩

/-- C4: in both layers, flipping exactly one of the parent, height or state
fields of an otherwise valid single child to any wrong value makes
`verify_sub_chain` reject the one-candidate chain. -/
theorem C4_single_field_tampering_rejected :
    ∀ (hashP2 : P2.Header → Nat) (hashP3 : P3.Header → Nat) (fuel : Nat)
      (A2 : P2.Header) (A3 : P3.Header) (e w : Nat),
      (w ≠ hashP2 A2 →
        P2.Header.verify_sub_chain hashP2 A2
          [{ P2.Header.child hashP2 A2 e with parent := w }] = false) ∧
      (w ≠ A2.height + 1 →
        P2.Header.verify_sub_chain hashP2 A2
          [{ P2.Header.child hashP2 A2 e with height := w }] = false) ∧
      (w ≠ A2.state + e →
        P2.Header.verify_sub_chain hashP2 A2
          [{ P2.Header.child hashP2 A2 e with state := w }] = false) ∧
      (w ≠ hashP3 A3 →
        P3.Header.verify_sub_chain hashP3 A3
          [{ P3.Header.child hashP3 fuel A3 e with parent := w }] = false) ∧
      (w ≠ A3.height + 1 →
        P3.Header.verify_sub_chain hashP3 A3
          [{ P3.Header.child hashP3 fuel A3 e with height := w }] = false) ∧
      (w ≠ A3.state + e →
        P3.Header.verify_sub_chain hashP3 A3
          [{ P3.Header.child hashP3 fuel A3 e with state := w }] = false) := by
  intro hashP2 hashP3 fuel A2 A3 e w
  obtain ⟨hp, hh, he, hs⟩ :=
    P3.childLoop_fields hashP3 fuel (P3.preChild hashP3 A3 e) 0
  simp only [P3.preChild] at hp hh he hs
  refine ⟨?_, ?_, ?_, ?_, ?_, ?_⟩
  · intro h
    rw [P2.verify_sub_chain_eq]
    simp [P2.verifyC, P2.verifyRestC, P2.Header.child, Ne.symm h]
  · intro h
    rw [P2.verify_sub_chain_eq]
    simp [P2.verifyC, P2.verifyRestC, P2.Header.child, h]
  · intro h
    have hx : e + A2.state ≠ w := by omega
    rw [P2.verify_sub_chain_eq]
    simp [P2.verifyC, P2.verifyRestC, P2.Header.child, hx]
  · intro h
    rw [P3.verify_sub_chain_eq3]
    simp [P3.verifyC, P3.verifyRestC, P3.Header.child, P3.preChild, hp, hh, he, hs,
      Ne.symm h]
  · intro h
    rw [P3.verify_sub_chain_eq3]
    simp [P3.verifyC, P3.verifyRestC, P3.Header.child, P3.preChild, hp, hh, he, hs, h]
  · intro h
    have hx : e + A3.state ≠ w := by omega
    rw [P3.verify_sub_chain_eq3]
    simp [P3.verifyC, P3.verifyRestC, P3.Header.child, P3.preChild, hp, hh, he, hs, hx]

/-- C4 witness: with a concrete oracle and anchor, each of the six tampering
scenarios is rejected at `e = 5`, `w = 10`. -/
theorem C4_single_field_tampering_rejected_witness :
    (P2.Header.verify_sub_chain P2.testHash P2.Header.genesis
      [{ P2.Header.child P2.testHash P2.Header.genesis 5 with parent := 10 }] = false) ∧
    (P2.Header.verify_sub_chain P2.testHash P2.Header.genesis
      [{ P2.Header.child P2.testHash P2.Header.genesis 5 with height := 10 }] = false) ∧
    (P2.Header.verify_sub_chain P2.testHash P2.Header.genesis
      [{ P2.Header.child P2.testHash P2.Header.genesis 5 with state := 10 }] = false) ∧
    (P3.Header.verify_sub_chain P3.testHash P3.Header.genesis
      [{ P3.Header.child P3.testHash 0 P3.Header.genesis 5 with parent := 10 }] = false) ∧
    (P3.Header.verify_sub_chain P3.testHash P3.Header.genesis
      [{ P3.Header.child P3.testHash 0 P3.Header.genesis 5 with height := 10 }] = false) ∧
    (P3.Header.verify_sub_chain P3.testHash P3.Header.genesis
      [{ P3.Header.child P3.testHash 0 P3.Header.genesis 5 with state := 10 }] = false) := by
  have T := C4_single_field_tampering_rejected P2.testHash P3.testHash 0
    P2.Header.genesis P3.Header.genesis 5 10
  exact ⟨T.1 (by decide), T.2.1 (by decide), T.2.2.1 (by decide),
    T.2.2.2.1 (by decide), T.2.2.2.2.1 (by decide), T.2.2.2.2.2 (by decide)⟩

/-- C5: a wrong-parity state at height exactly `FORK_HEIGHT` does not by
itself cause rejection by the partisan verifiers (acceptance only constrains
headers strictly above the fork height), while a wrong-parity state at height
`FORK_HEIGHT + 1` rejects the whole sequence. -/
theorem C5_fork_height_boundary :
    ∀ (hashH : P3.Header → Nat) (A : P3.Header) (C : List P3.Header),
      ((∃ c ∈ C, c.height = P3.FORK_HEIGHT + 1 ∧ c.state % 2 = 1) →
        P3.Header.verify_sub_chain_even hashH A C = false) ∧
      ((∃ c ∈ C, c.height = P3.FORK_HEIGHT + 1 ∧ c.state % 2 = 0) →
        P3.Header.verify_sub_chain_odd hashH A C = false) ∧
      (P3.Header.verify_sub_chain hashH A C = true →
        (A.height > P3.FORK_HEIGHT → A.state % 2 = 0) →
        (∀ c ∈ C, c.height > P3.FORK_HEIGHT → c.state % 2 = 0) →
        P3.Header.verify_sub_chain_even hashH A C = true) ∧
      (P3.Header.verify_sub_chain hashH A C = true →
        (A.height > P3.FORK_HEIGHT → A.state % 2 = 1) →
        (∀ c ∈ C, c.height > P3.FORK_HEIGHT → c.state % 2 = 1) →
        P3.Header.verify_sub_chain_odd hashH A C = true) := by
  intro hashH A C
  refine ⟨?_, ?_, ?_, ?_⟩
  · rintro ⟨c, hc, hh, hs⟩
    rw [P3.verify_even_eq]
    have hcf : P3.evenAfterFork c = false := by
      simp [P3.evenAfterFork, hh, hs, P3.FORK_HEIGHT]
    have hall : C.all P3.evenAfterFork = false := by
      cases hba : C.all P3.evenAfterFork with
      | false => rfl
      | true =>
        have := List.all_eq_true.mp hba c hc
        rw [hcf] at this
        exact absurd this (by simp)
    simp [hall]
  · rintro ⟨c, hc, hh, hs⟩
    rw [P3.verify_odd_eq]
    have hcf : P3.oddAfterFork c = false := by
      simp [P3.oddAfterFork, hh, hs, P3.FORK_HEIGHT]
    have hall : C.all P3.oddAfterFork = false := by
      cases hba : C.all P3.oddAfterFork with
      | false => rfl
      | true =>
        have := List.all_eq_true.mp hba c hc
        rw [hcf] at this
        exact absurd this (by simp)
    simp [hall]
  · intro hv ha hcl
    rw [P3.verify_even_eq, hv]
    simp only [Bool.true_and, Bool.and_eq_true]
    refine ⟨?_, ?_⟩
    · simp only [P3.evenAfterFork, decide_eq_true_eq]
      exact ha
    · rw [List.all_eq_true]
      intro c hc
      simp only [P3.evenAfterFork, decide_eq_true_eq]
      exact hcl c hc
  · intro hv ha hcl
    rw [P3.verify_odd_eq, hv]
    simp only [Bool.true_and, Bool.and_eq_true]
    refine ⟨?_, ?_⟩
    · simp only [P3.oddAfterFork, decide_eq_true_eq]
      exact ha
    · rw [List.all_eq_true]
      intro c hc
      simp only [P3.oddAfterFork, decide_eq_true_eq]
      exact hcl c hc


/-- C5 witness: on the concrete demonstration chains, an odd state at height
`FORK_HEIGHT + 1` is rejected by the even verifier, while a chain that is odd
exactly at the fork height but even above it is accepted. -/
theorem C5_fork_height_boundary_witness :
    P3.Header.verify_sub_chain_even P3.testHash P3.Header.genesis
      [P3.demo1, P3.demo2, P3.demo3odd, P3.demo4odd] = false ∧
    P3.Header.verify_sub_chain_even P3.testHash P3.Header.genesis
      [P3.demo1, P3.demo2, P3.demo3even, P3.demo4even] = true :=
  ⟨(C5_fork_height_boundary P3.testHash P3.Header.genesis
      [P3.demo1, P3.demo2, P3.demo3odd, P3.demo4odd]).1 (by decide),
   (C5_fork_height_boundary P3.testHash P3.Header.genesis
      [P3.demo1, P3.demo2, P3.demo3even, P3.demo4even]).2.2.1
      (by decide) (by decide) (by decide)⟩

/-- C1: contrary to the claim, the checks are not applied to every candidate.
In the Linked-State Layer a two-candidate chain whose final candidate violates
all three checks relative to its predecessor is accepted, and in the Consensus
Layer a second (final) candidate whose parent link is corrupted is accepted:
the loop only checks the parent of a candidate from the middle-index branch of
its predecessor and gives the branch of the final candidate no checks at all. -/
theorem C1_checks_not_applied_to_all :
    (P2.Header.verify_sub_chain P2.testHash P2.Header.genesis
      [P2.Header.child P2.testHash P2.Header.genesis 0,
        (⟨999, 999, 7, 999, ()⟩ : P2.Header)] = true ∧
      999 ≠ P2.testHash (P2.Header.child P2.testHash P2.Header.genesis 0) ∧
      (999 : Nat) ≠ (P2.Header.child P2.testHash P2.Header.genesis 0).height + 1 ∧
      (999 : Nat) ≠ (P2.Header.child P2.testHash P2.Header.genesis 0).state + 7) ∧
    (P3.Header.verify_sub_chain P3.testHash P3.Header.genesis
      [P3.Header.child P3.testHash 0 P3.Header.genesis 5,
        { P3.Header.child P3.testHash 0
            (P3.Header.child P3.testHash 0 P3.Header.genesis 5) 6
            with parent := 12345 }] = true ∧
      12345 ≠ P3.testHash (P3.Header.child P3.testHash 0 P3.Header.genesis 5)) := by
  decide

/-- C3: the guard of the nonce search is `hash > THRESHOLD`, not
`hash >= THRESHOLD`: under the modelled boundary oracle, whose every digest
equals `THRESHOLD` exactly, the search stops at nonce 0 with a child whose
digest is not strictly below `THRESHOLD`, and the verifier of the layer itself rejects
the freshly mined child — whatever iteration budget the search is given. -/
theorem C3_pow_boundary_violated :
    ∀ fuel : Nat,
      P3.Header.child P3.boundaryHash fuel P3.Header.genesis 0 =
        P3.preChild P3.boundaryHash P3.Header.genesis 0 ∧
      P3.boundaryHash (P3.Header.child P3.boundaryHash fuel P3.Header.genesis 0) =
        P3.THRESHOLD ∧
      ¬ P3.boundaryHash (P3.Header.child P3.boundaryHash fuel P3.Header.genesis 0) <
        P3.THRESHOLD ∧
      P3.Header.verify_sub_chain P3.boundaryHash P3.Header.genesis
        [P3.Header.child P3.boundaryHash fuel P3.Header.genesis 0] = false := by
  intro fuel
  have hc : P3.Header.child P3.boundaryHash fuel P3.Header.genesis 0 =
      P3.preChild P3.boundaryHash P3.Header.genesis 0 := by
    rw [P3.Header.child, P3.childLoop_boundaryHash]
  refine ⟨hc, rfl, lt_irrefl P3.THRESHOLD, ?_⟩
  rw [hc]
  decide

/-- C7 counterexample: under the modelled stuck oracle, whose every digest is
strictly above `THRESHOLD`, the nonce search of the Consensus-Layer `child`
exits under no iteration budget at all — the `while` loop of the source runs
forever — so construction is not total for every deterministic hashing
oracle. -/
theorem C7_nonce_search_can_diverge :
    ¬ ∃ fuel : Nat,
      P3.childSearchExits P3.stuckHash
        (P3.preChild P3.stuckHash P3.Header.genesis 0) 0 fuel = true := by
  rintro ⟨fuel, hf⟩
  rw [P3.childSearchExits_stuckHash] at hf
  exact Bool.false_ne_true hf

/-- C7 (amended): `genesis` and the Linked-State `child` are total
constructors returning the stated headers, and the Consensus-Layer nonce
search exits — so its `child` terminates and returns a header — whenever some
nonce gives the candidate a digest at or below `THRESHOLD` (almost sure under
the uniform-oracle reading of the spec, but not guaranteed for every deterministic
oracle). -/
theorem C7_construction_total :
    ∀ (hashP2 : P2.Header → Nat) (hashP3 : P3.Header → Nat) (H2 : P2.Header)
      (H3 : P3.Header) (e : Nat),
      P2.Header.genesis = (⟨0, 0, 0, 0, ()⟩ : P2.Header) ∧
      P2.Header.child hashP2 H2 e =
        (⟨hashP2 H2, H2.height + 1, e, H2.state + e, ()⟩ : P2.Header) ∧
      ((∃ n, hashP3 (P3.nthCandidate hashP3 H3 e n) ≤ P3.THRESHOLD) →
        ∃ fuel, P3.childSearchExits hashP3 (P3.preChild hashP3 H3 e) 0 fuel = true) := by
  intro hashP2 hashP3 H2 H3 e
  refine ⟨rfl, rfl, ?_⟩
  rintro ⟨n, hn⟩
  refine ⟨n, ?_⟩
  have hstart : P3.preChild hashP3 H3 e = P3.nthCandidate hashP3 H3 e 0 := rfl
  rw [hstart]
  refine P3.childSearchExits_of_le hashP3 H3 e n 0 ?_
  simpa using hn

/-- C7 witness: with the concrete oracle the nonce search for a child of
genesis exits (already at nonce 0). -/
theorem C7_construction_total_witness :
    ∃ fuel, P3.childSearchExits P3.testHash
      (P3.preChild P3.testHash P3.Header.genesis 0) 0 fuel = true :=
  (C7_construction_total P2.testHash P3.testHash P2.Header.genesis
    P3.Header.genesis 0).2.2 ⟨0, by decide⟩
